import Mathlib

/-!
Verification development for the foton-rs request-dispatch core.

The definitions below are a shallow embedding of the Rust sources:
`src/error.rs`, `src/res.rs`, `src/into_res.rs`, `src/req.rs`,
`src/extractors.rs`, `src/handler.rs`, `src/middleware.rs`,
`src/router.rs`, `src/extensions.rs` and `src/api.rs`.
Machine integers (usize lengths, status codes) are modelled as `Nat`;
byte buffers as `List Nat`; the hyper transport handle as a transcript
value of type `Except String Bytes` (the bytes the transport would
deliver, or a transport failure). Async functions are sequential in the
sources (one request is handled by one task, no intra-request
concurrency), so they are embedded as plain functions.
-/

namespace FotonRs

/-- HTTP methods registered by the builder API (api.rs get/post/put/delete/patch). -/
inductive Method where
  | GET
  | POST
  | PUT
  | DELETE
  | PATCH
deriving DecidableEq, Repr

/-- Error type from error.rs. `hyper::Error`, `std::io::Error` and the JSON
error payloads are modelled by their display strings. -/
inductive Error where
  | status : Nat → Option String → Error
  | jsonErr : String → Error
  | hyperErr : String → Error
  | ioErr : String → Error
  | custom : String → Error
deriving DecidableEq, Repr

/-- error.rs `Error::bad_request`. -/
def Error.badRequest (msg : String) : Error := Error.status 400 (some msg)

/-- error.rs `Error::not_found`. -/
def Error.notFound (msg : String) : Error := Error.status 404 (some msg)

/-- error.rs `Error::payload_too_large`. -/
def Error.payloadTooLarge (msg : String) : Error := Error.status 413 (some msg)

/-- error.rs `Error::unprocessable`. -/
def Error.unprocessable (msg : String) : Error := Error.status 422 (some msg)

/-- error.rs `Error::internal`. -/
def Error.internal (msg : String) : Error := Error.status 500 (some msg)

/-- res.rs: `StatusCode::from_u16(code).unwrap_or(INTERNAL_SERVER_ERROR)`.
The http crate accepts codes in [100, 1000). -/
def validStatus (c : Nat) : Nat := if 100 ≤ c ∧ c < 1000 then c else 500

/-- Response model: status, content-type header, body text (res.rs `Res`). -/
structure Res where
  statusCode : Nat
  contentType : Option String
  body : String
deriving DecidableEq, Repr

/-- res.rs `Res::text`. -/
def Res.text (s : String) : Res :=
  { statusCode := 200, contentType := some "text/plain; charset=utf-8", body := s }

/-- res.rs `Res::status`. -/
def Res.statusOnly (c : Nat) : Res :=
  { statusCode := validStatus c, contentType := none, body := "" }

/-- res.rs `Res::builder().status(code).text(msg)`. -/
def Res.builderStatusText (c : Nat) (s : String) : Res :=
  { statusCode := validStatus c, contentType := some "text/plain; charset=utf-8", body := s }

/-- into_res.rs `impl IntoRes for Error`: the default error-to-response mapping. -/
def Error.intoRes : Error → Res
  | Error.status code (some msg) => Res.builderStatusText code (toString code ++ " " ++ msg)
  | Error.status code none => Res.statusOnly code
  | Error.jsonErr e => Res.builderStatusText 400 ("JSON error: " ++ e)
  | Error.hyperErr e => Res.builderStatusText 500 ("HTTP error: " ++ e)
  | Error.ioErr e => Res.builderStatusText 500 ("IO error: " ++ e)
  | Error.custom msg => Res.builderStatusText 500 msg

/-- Byte buffers (`bytes::Bytes`). -/
abbrev Bytes := List Nat

/-- Request model (req.rs `Req`). `bodyCell` is the `OnceCell<Bytes>`,
`incoming` the optional un-consumed transport handle, modelled as the
transcript of what a `collect()` on it would produce. Header names are
stored lower-cased, matching the case-insensitive hyper `HeaderMap`.
The extension store is embedded separately (see `Extensions` below); on
the request we keep the single extension value the dispatcher writes,
the registered error handler (api.rs line 235). -/
structure Req where
  method : Method
  path : String
  queryStr : Option String
  headers : List (String × String)
  bodyCell : Option Bytes
  incoming : Option (Except String Bytes)
  pathParams : List (String × String)
  bodyLimit : Option Nat
  ehExt : Option (Error → Res)

/-- Header lookup (hyper `HeaderMap::get` with values convertible to str). -/
def headerGet (hs : List (String × String)) (name : String) : Option String :=
  (hs.find? (fun p => p.1 == name)).map (fun p => p.2)

/-- req.rs `Req::from_hyper` for a request with the given parts: the body
cell starts empty, the transport handle is present, no body limit. -/
def Req.fromHyper (m : Method) (p : String) (q : Option String)
    (hs : List (String × String)) (tr : Except String Bytes) : Req :=
  { method := m, path := p, queryStr := q, headers := hs,
    bodyCell := none, incoming := some tr, pathParams := [],
    bodyLimit := none, ehExt := none }

/-- Inner part of req.rs `Req::body`: the transport read (`collect`) and
the actual-size check, entered after the content-length check passed.
The third component counts transport reads performed (0 or 1). -/
def Req.bodyRead (r1 : Req) (tr : Except String Bytes) : Except Error Bytes × Req × Nat :=
  match tr with
  | Except.error e => (Except.error (Error.custom ("Failed to read body: " ++ e)), r1, 1)
  | Except.ok bs =>
    match r1.bodyLimit with
    | some limit =>
      if bs.length > limit then
        (Except.error (Error.payloadTooLarge
          ("Request body size " ++ toString bs.length ++ " exceeds limit of " ++ toString limit)),
         r1, 1)
      else (Except.ok bs, { r1 with bodyCell := some bs }, 1)
    | none => (Except.ok bs, { r1 with bodyCell := some bs }, 1)

/-- Rust `str::parse::<usize>` on a decimal string: succeeds on a
non-empty all-digit string (the optional plus sign accepted by Rust
never occurs in the inputs considered here). -/
def parseNat? (s : String) : Option Nat :=
  if s.data ≠ [] ∧ s.data.all (fun c => c.isDigit) then
    some (s.data.foldl (fun n c => n * 10 + (c.toNat - 48)) 0)
  else none

/-- The content-length pre-check of req.rs `Req::body` (lines 134-147):
it fires exactly when a limit is configured, the header is present, it
parses as a number, and that number exceeds the limit; it reports the
declared size and the limit (for the error message). -/
def declaredExceeds (lim : Option Nat) (hs : List (String × String)) :
    Option (Nat × Nat) :=
  match lim, headerGet hs "content-length" with
  | some limit, some v =>
    match parseNat? v with
    | some n => if n > limit then some (n, limit) else none
    | none => none
  | _, _ => none

/-- req.rs `Req::body` (lines 125-170): `get_or_try_init` on the once
cell; on a miss the transport handle is taken (even if a later check
fails), then the declared content-length is checked against the limit,
then the body is collected and its actual size checked. The third
component counts transport reads performed by this call. -/
def Req.bodyStep (r : Req) : Except Error Bytes × Req × Nat :=
  match r.bodyCell with
  | some b => (Except.ok b, r, 0)
  | none =>
    match r.incoming with
    | none => (Except.error (Error.internal "Request body already consumed"), r, 0)
    | some tr =>
      match declaredExceeds r.bodyLimit r.headers with
      | some (n, limit) =>
        (Except.error (Error.payloadTooLarge
          ("Request body size " ++ toString n ++ " exceeds limit of " ++ toString limit)),
         { r with incoming := none }, 0)
      | none => Req.bodyRead { r with incoming := none } tr

/-- req.rs `Req::body` without the read counter, as used by extractors. -/
def Req.bodyE (r : Req) : Except Error Bytes × Req :=
  ((r.bodyStep).1, (r.bodyStep).2.1)

/-- extractors.rs `impl FromRequest for Query` (lines 33-51): the query
string must be present, then it is deserialized; `parse` stands for the
serde_urlencoded deserializer of the target type. -/
def queryFromRequest {A : Type} (parse : String → Except String A) (r : Req) :
    Except Error A × Req :=
  match r.queryStr with
  | none => (Except.error (Error.badRequest "Missing query string"), r)
  | some q =>
    match parse q with
    | Except.error e => (Except.error (Error.badRequest ("Invalid query parameters: " ++ e)), r)
    | Except.ok v => (Except.ok v, r)

/-- extractors.rs `impl FromRequest for Form` (lines 62-81): content-type
is checked before the body is touched; `parse` stands for the
serde_urlencoded body deserializer. -/
def formFromRequest {A : Type} (parse : Bytes → Except String A) (r : Req) :
    Except Error A × Req :=
  let ct := (headerGet r.headers "content-type").getD ""
  if ct.startsWith "application/x-www-form-urlencoded" then
    match r.bodyE with
    | (Except.error e, r1) => (Except.error e, r1)
    | (Except.ok bs, r1) =>
      match parse bs with
      | Except.error e => (Except.error (Error.unprocessable ("Invalid form data: " ++ e)), r1)
      | Except.ok v => (Except.ok v, r1)
  else
    (Except.error (Error.badRequest "Content-Type must be application/x-www-form-urlencoded"), r)

/-- extractors.rs `impl FromRequest for Json` (lines 92-109). -/
def jsonFromRequest {A : Type} (parse : Bytes → Except String A) (r : Req) :
    Except Error A × Req :=
  let ct := (headerGet r.headers "content-type").getD ""
  if ct.startsWith "application/json" then
    match r.bodyE with
    | (Except.error e, r1) => (Except.error e, r1)
    | (Except.ok bs, r1) =>
      match parse bs with
      | Except.error e => (Except.error (Error.badRequest ("Invalid JSON: " ++ e)), r1)
      | Except.ok v => (Except.ok v, r1)
  else
    (Except.error (Error.badRequest "Content-Type must be application/json"), r)

/-- extractors.rs `impl FromRequest for BodyBytes` (lines 160-170). -/
def bodyBytesFromRequest (r : Req) : Except Error Bytes × Req :=
  match r.bodyE with
  | (Except.error e, r1) => (Except.error e, r1)
  | (Except.ok bs, r1) => (Except.ok bs, r1)

/-- Extractor shape from extractors.rs `FromRequest::from_request`: it
receives the request by mutable reference and the shared state, and
returns a `Result` plus the possibly mutated request. -/
abbrev ExtractorFn (S A : Type) := Req → S → Except Error A × Req

/-- handler.rs `FnHandler1::call` (lines 62-69): run the extractor, on
failure convert the error directly, otherwise invoke the user function
and normalize its output (`IntoRes`, abstracted as `toRes`). -/
def fnHandler1Call {S A O : Type} (e1 : ExtractorFn S A) (f : A → O) (toRes : O → Res)
    (r : Req) (st : S) : Res :=
  match e1 r st with
  | (Except.error e, _) => e.intoRes
  | (Except.ok a, _) => toRes (f a)

/-- handler.rs `FnHandler2::call` (lines 98-110). -/
def fnHandler2Call {S A B O : Type} (e1 : ExtractorFn S A) (e2 : ExtractorFn S B)
    (f : A → B → O) (toRes : O → Res) (r : Req) (st : S) : Res :=
  match e1 r st with
  | (Except.error e, _) => e.intoRes
  | (Except.ok a, r1) =>
    match e2 r1 st with
    | (Except.error e, _) => e.intoRes
    | (Except.ok b, _) => toRes (f a b)

/-- handler.rs `FnHandler3::call` (lines 140-157). -/
def fnHandler3Call {S A B C O : Type} (e1 : ExtractorFn S A) (e2 : ExtractorFn S B)
    (e3 : ExtractorFn S C) (f : A → B → C → O) (toRes : O → Res) (r : Req) (st : S) : Res :=
  match e1 r st with
  | (Except.error e, _) => e.intoRes
  | (Except.ok a, r1) =>
    match e2 r1 st with
    | (Except.error e, _) => e.intoRes
    | (Except.ok b, r2) =>
      match e3 r2 st with
      | (Except.error e, _) => e.intoRes
      | (Except.ok c, _) => toRes (f a b c)

/-- handler.rs `Handler::call` shape: request and shared state to response. -/
abbrev HandlerFn (S Q R : Type) := Q → S → R

/-- middleware.rs `Middleware::handle` shape: request, state, and the
continuation (`Next`, which captures the same application state, so
invoking it is applying the inner chain to the request and state). -/
abbrev MwFn (S Q R : Type) := Q → S → HandlerFn S Q R → R

/-- api.rs `handle_request` lines 251-281: starting from the adapted
handler, wrap each middleware around the chain built so far, iterating
the middleware list in reverse, so the head of the list ends up
outermost. -/
def buildChain {S Q R : Type} (mws : List (MwFn S Q R)) (h : HandlerFn S Q R) :
    HandlerFn S Q R :=
  mws.foldr (fun m k => fun q s => m q s k) h

/-- Same loop, also counting how many chain wrappers (`Arc::new` closures
around `next_fn`) are constructed: one per middleware, per invocation of
the loop. -/
def buildChainCounted {S Q R : Type} (mws : List (MwFn S Q R)) (h : HandlerFn S Q R) :
    HandlerFn S Q R × Nat :=
  mws.foldr (fun m p => (fun q s => m q s p.1, p.2 + 1)) (h, 0)

/-- router.rs `Router` (lines 14-18): routes, middlewares, nested routers. -/
inductive RouterM (H M : Type) where
  | mk (routes : List (Method × String × H)) (middlewares : List M)
       (nested : List (String × RouterM H M))

/-- A flattened route entry: method, full path, handler, middleware list
(the element type of api.rs `RustApi::routes`). -/
abbrev RouteEntry (H M : Type) := Method × String × H × List M

mutual

/-- router.rs `Router::flatten` (lines 97-130): direct routes get the
full path and the middleware list of this router; nested routers are
flattened recursively under the extended path and get the middleware
list of this router prepended. -/
def RouterM.flatten {H M : Type} : RouterM H M → String → List (RouteEntry H M)
  | RouterM.mk routes mws nested, pre =>
    routes.map (fun t => (t.1, pre ++ t.2.1, t.2.2, mws)) ++
      RouterM.flattenNested mws nested pre

/-- The nested-router loop of router.rs `Router::flatten` (lines 114-127). -/
def RouterM.flattenNested {H M : Type} :
    List M → List (String × RouterM H M) → String → List (RouteEntry H M)
  | _, [], _ => []
  | mws, (np, nr) :: rest, pre =>
    (RouterM.flatten nr (pre ++ np)).map
      (fun e => (e.1, e.2.1, e.2.2.1, mws ++ e.2.2.2)) ++
      RouterM.flattenNested mws rest pre

end

/-- api.rs `RustApi` builder state (lines 27-33). The error handler is a
plain error-to-response function (error_handler.rs `ErrorHandler`). -/
structure AppModel (S H M : Type) where
  routes : List (RouteEntry H M)
  middlewares : List M
  stateVal : Option S
  errHandler : Option (Error → Res)

/-- api.rs `RustApi::nest` (lines 154-160): flatten the router at the
given path and append all resulting entries. -/
def AppModel.nestRouter {S H M : Type} (app : AppModel S H M) (pre : String)
    (r : RouterM H M) : AppModel S H M :=
  { app with routes := app.routes ++ r.flatten pre }

/-- api.rs `build_router` first loop (lines 169-178): for every
registered route, the stored middleware list is the global middleware
followed by the middleware the route arrived with. -/
def combineRoutes {S H M : Type} (app : AppModel S H M) :
    List (Method × String × H × List M) :=
  app.routes.map (fun r => (r.1, r.2.1, r.2.2.1, app.middlewares ++ r.2.2.2))

/-- api.rs `build_router` grouping into `method_routes : HashMap`.
HashMap iteration order is unspecified in the source; this model fixes
one concrete order (first by deduplicated method, then registration
order within a method). No theorem below depends on the order across
method groups. -/
def groupedRoutes {H M : Type} (rs : List (Method × String × H × List M)) :
    List (String × H × List M) :=
  (((rs.map (fun r => r.1)).dedup).map
    (fun m => (rs.filter (fun r => r.1 == m)).map (fun r => r.2))).flatten

/-- matchit `Router::insert` with the `.ok()` of api.rs line 182: a
second insertion at an already registered path is an error whose result
is discarded, so the first registration at a path wins. -/
def tableInsert {V : Type} (tbl : List (String × V)) (p : String) (v : V) :
    List (String × V) :=
  if tbl.any (fun e => e.1 == p) then tbl else tbl ++ [(p, v)]

/-- api.rs `build_router` (lines 162-188): combine middleware, group by
method, and insert every route into one single matchit router keyed by
path only; the method of each group is discarded (line 180 binds it as
`_method`). -/
def buildTable {S H M : Type} (app : AppModel S H M) : List (String × H × List M) :=
  (groupedRoutes (combineRoutes app)).foldl
    (fun tbl e => tableInsert tbl e.1 e.2) []

/-- matchit `Router::at` for literal patterns: exact path equality.
Capture segments do not occur in any claim settled here. -/
def tableAt {V : Type} (tbl : List (String × V)) (p : String) : Option V :=
  (tbl.find? (fun e => e.1 == p)).map (fun e => e.2)

/-- api.rs `handle_request` route lookup (lines 222-238): only
`req.uri().path()` is consulted; the request method never is. -/
def resolveOf {S H M : Type} (app : AppModel S H M) (r : Req) : Option (H × List M) :=
  tableAt (buildTable app) r.path

/-- api.rs `handle_request` request preparation (lines 228-236): set the
path parameters from the match (empty for literal patterns) and insert
the registered error handler, if any, into the request extensions. -/
def prepareReq {S H M : Type} (app : AppModel S H M) (r : Req) : Req :=
  let r1 := { r with pathParams := [] }
  match app.errHandler with
  | some eh => { r1 with ehExt := some eh }
  | none => r1

/-- api.rs `handle_request` (lines 218-298) for a built application:
look up the path, prepare the request, check the state, then either call
the handler directly (no middleware) or build the continuation chain for
this request and drive it. The second component counts the chain
wrapper constructions performed during this dispatch. -/
def dispatchI {S : Type} (app : AppModel S (HandlerFn S Req Res) (MwFn S Req Res))
    (r : Req) : Res × Nat :=
  match resolveOf app r with
  | some (h, mws) =>
    let r2 := prepareReq app r
    match app.stateVal with
    | none => ((Error.internal "State not initialized").intoRes, 0)
    | some st =>
      if mws.isEmpty then (h r2 st, 0)
      else
        let bc := buildChainCounted mws h
        (bc.1 r2 st, bc.2)
  | none => ((Error.notFound "Route not found").intoRes, 0)

/-- extensions.rs: a `Box<dyn Any + Send + Sync>` together with the
runtime type identity of its content. Type identities are modelled as
`Nat` tags and the family `V` gives the Rust type behind each tag. -/
structure DynBox (V : Nat → Type) where
  tag : Nat
  val : V tag

/-- `Box::downcast::<T>`: succeeds exactly when the runtime tag matches
the requested type. -/
def DynBox.downcast {V : Nat → Type} (d : DynBox V) (k : Nat) : Option (V k) :=
  if h : d.tag = k then some (h ▸ d.val) else none

/-- extensions.rs `Extensions` (line 8): a map keyed by `TypeId`,
modelled as an association list with distinct keys (the `HashMap`
invariant). -/
structure Extensions (V : Nat → Type) where
  map : List (Nat × DynBox V)

/-- extensions.rs `Extensions::new` (capacity is irrelevant to contents). -/
def Extensions.empty {V : Nat → Type} : Extensions V := ⟨[]⟩

/-- Keys present in the store. -/
def Extensions.keys {V : Nat → Type} (e : Extensions V) : List Nat :=
  e.map.map (fun p => p.1)

/-- extensions.rs `Extensions::get` (lines 40-44): `HashMap::get` at the
`TypeId` of `T` followed by `downcast_ref`. -/
def Extensions.get {V : Nat → Type} (e : Extensions V) (k : Nat) : Option (V k) :=
  (e.map.find? (fun p => p.1 == k)).bind (fun p => p.2.downcast k)

/-- extensions.rs `Extensions::insert` (lines 31-36): `HashMap::insert`
stores the boxed value under the `TypeId` of `T`, replacing and
returning any previous entry, which is then downcast to `T`. -/
def Extensions.insert {V : Nat → Type} (e : Extensions V) (k : Nat) (v : V k) :
    Option (V k) × Extensions V :=
  ((e.map.find? (fun p => p.1 == k)).bind (fun p => p.2.downcast k),
   ⟨(e.map.filter (fun p => p.1 != k)) ++ [(k, ⟨k, v⟩)]⟩)

/-- extensions.rs `Extensions::remove` (lines 56-61). -/
def Extensions.remove {V : Nat → Type} (e : Extensions V) (k : Nat) :
    Option (V k) × Extensions V :=
  ((e.map.find? (fun p => p.1 == k)).bind (fun p => p.2.downcast k),
   ⟨e.map.filter (fun p => p.1 != k)⟩)

/-- A state-changing operation on the store (`get` reads only). -/
inductive ExtOp (V : Nat → Type) where
  | ins (k : Nat) (v : V k)
  | del (k : Nat)

/-- Apply one operation. -/
def ExtOp.apply {V : Nat → Type} (e : Extensions V) : ExtOp V → Extensions V
  | ExtOp.ins k v => (e.insert k v).2
  | ExtOp.del k => (e.remove k).2

/-- Run a sequence of operations from the empty store. -/
def runOps {V : Nat → Type} (ops : List (ExtOp V)) : Extensions V :=
  ops.foldl ExtOp.apply Extensions.empty

/-- Modelled from the spec: the reference functional store, holding for
each type the most recently inserted, not-removed value. Used only to
compare against the embedded `Extensions`. -/
def specUpd {V : Nat → Type} (f : (k : Nat) → Option (V k)) :
    ExtOp V → (k : Nat) → Option (V k)
  | ExtOp.ins k v => fun j => if h : k = j then some (h ▸ v) else f j
  | ExtOp.del k => fun j => if k = j then none else f j

/-- The reference store after a sequence of operations. -/
def specStore {V : Nat → Type} (ops : List (ExtOp V)) : (k : Nat) → Option (V k) :=
  ops.foldl specUpd (fun _ => none)

/-- A request value carrying only method and path (used to drive the
routing model; all other components are empty). -/
def plainReq (m : Method) (p : String) : Req :=
  { method := m, path := p, queryStr := none, headers := [], bodyCell := none,
    incoming := none, pathParams := [], bodyLimit := none, ehExt := none }

/-- Observable events of a chain execution: a middleware running its
before phase, the handler running, a middleware running its after phase. -/
inductive Ev where
  | before (i : Nat)
  | handled
  | after (i : Nat)
deriving DecidableEq, Repr

/-- A delegating middleware with identity `i`: records its before phase
on the request, invokes the continuation exactly once, then records its
after phase on the returned response. -/
def logMw (i : Nat) : MwFn Unit (List Ev) (List Ev) :=
  fun q s k => (k (q ++ [Ev.before i]) s) ++ [Ev.after i]

/-- A handler that records its invocation. -/
def logHandler : HandlerFn Unit (List Ev) (List Ev) :=
  fun q _ => q ++ [Ev.handled]

/-- A tower of nested routers: each scope contributes a mount path and a
middleware list, outermost first, around the given inner router
(built with router.rs `Router::nest`). -/
def scopeTower {H M : Type} (scopes : List (String × List M)) (inner : RouterM H M) :
    RouterM H M :=
  scopes.foldr (fun sc r => RouterM.mk [] sc.2 [(sc.1, r)]) inner

/-- req.rs `Req::set_body_limit` (lines 60-62). This function has no
caller anywhere in the sources, which is what claim C2 turns on. -/
def Req.setBodyLimit (r : Req) (limit : Option Nat) : Req :=
  { r with bodyLimit := limit }

/-- config.rs `ServerConfig`, reduced to the body limit field; nothing
in api.rs or req.rs ever consumes a `ServerConfig`. -/
structure ServerConfigM where
  bodyLimit : Option Nat
deriving DecidableEq, Repr

/-- A configuration declaring a 10-byte body limit. -/
def configLimit10 : ServerConfigM := ⟨some 10⟩

/-- A handler taking the raw body bytes (extractors.rs `BodyBytes`) and
answering with text derived from them (into_res.rs `IntoRes for String`). -/
def uploadHandler : HandlerFn Unit Req Res :=
  fun r st =>
    fnHandler1Call (fun r2 _ => bodyBytesFromRequest r2)
      (fun bs : Bytes => if bs.length = 11 then "got-eleven-bytes" else "short")
      Res.text r st

/-- Application with a single POST route reading the raw body. -/
def app2 : AppModel Unit (HandlerFn Unit Req Res) (MwFn Unit Req Res) :=
  AppModel.mk [(Method.POST, "/upload", uploadHandler, [])] [] (some ()) none

/-- An 11-byte POST request with a declared content-length of 11, as
built by `Req::from_hyper`. -/
def req11 : Req :=
  Req.fromHyper Method.POST "/upload" none [("content-length", "11")]
    (Except.ok [1, 2, 3, 4, 5, 6, 7, 8, 9, 10, 11])

/-- Application with a single GET registration, used to probe routing. -/
def app1 : AppModel Unit Nat Unit :=
  AppModel.mk [(Method.GET, "/users", 1, [])] [] (some ()) none

/-- A middleware that delegates unchanged. -/
def passMw : MwFn Unit Req Res := fun q s k => k q s

/-- A handler answering a fixed text. -/
def okHandler : HandlerFn Unit Req Res := fun _ _ => Res.text "ok"

/-- Application with one global middleware and one GET route. -/
def app3 : AppModel Unit (HandlerFn Unit Req Res) (MwFn Unit Req Res) :=
  AppModel.mk [(Method.GET, "/a", okHandler, [])] [passMw] (some ()) none

/-- An error handler mapping every error to a bare 599 response. -/
def eh599 : Error → Res := fun _ => Res.statusOnly 599

/-- A handler whose single extractor is the query extractor; on requests
without a query string the extraction fails. -/
def failingHandler : HandlerFn Unit Req Res :=
  fun r st =>
    fnHandler1Call (fun r2 _ => queryFromRequest (fun _ => Except.ok "q") r2)
      (fun s : String => s) Res.text r st

/-- Application registering the 599 error handler and one GET route with
a failing extractor. -/
def app4 : AppModel Unit (HandlerFn Unit Req Res) (MwFn Unit Req Res) :=
  AppModel.mk [(Method.GET, "/a", failingHandler, [])] [] (some ()) (some eh599)

/-- An extractor that always fails. -/
def failExtractor : ExtractorFn Unit Nat :=
  fun r _ => (Except.error (Error.badRequest "no"), r)

/-- An extractor that always succeeds. -/
def okExtractor : ExtractorFn Unit Nat := fun r _ => (Except.ok 7, r)

/-- How many transport reads are still possible on a request: one while
the body cell is empty and the transport handle has not been taken. -/
def readPotential (r : Req) : Nat :=
  match r.bodyCell, r.incoming with
  | none, some _ => 1
  | _, _ => 0

/-- Iterate `Req::body` the given number of times, accumulating the
transport reads performed. -/
def bodyCalls : Nat → Req → Req × Nat
  | 0, r => (r, 0)
  | Nat.succ n, r =>
    let s := r.bodyStep
    let rest := bodyCalls n s.2.1
    (rest.1, s.2.2 + rest.2)

/-- A fresh GET request whose transport would deliver two bytes. -/
def reqBody2 : Req := Req.fromHyper Method.GET "/b" none [] (Except.ok [5, 6])

/-- Downcasting a box at its own tag returns its content. -/
theorem DynBox.downcast_self {V : Nat → Type} (k : Nat) (v : V k) :
    DynBox.downcast (V := V) ⟨k, v⟩ k = some v := by
  unfold DynBox.downcast
  rw [dif_pos rfl]

/-- Filtering out key `k` does not change the first entry found at a key
`j` different from `k`. -/
theorem find?_filter_ne {V : Nat → Type} (l : List (Nat × DynBox V)) (k j : Nat)
    (hne : j ≠ k) :
    (l.filter (fun p => p.1 != k)).find? (fun p => p.1 == j) =
      l.find? (fun p => p.1 == j) := by
  induction l with
  | nil => rfl
  | cons hd tl ih =>
    obtain ⟨a, d⟩ := hd
    by_cases hk : a = k
    · subst hk
      have hkj : (a == j) = false := beq_eq_false_iff_ne.mpr (Ne.symm hne)
      simp [List.filter_cons, List.find?_cons, hkj, ih]
    · by_cases hj : a = j
      · subst hj
        simp [List.filter_cons, List.find?_cons, hk]
      · have h1 : (a == j) = false := beq_eq_false_iff_ne.mpr hj
        simp [List.filter_cons, List.find?_cons, hk, h1, ih]

/-- No entry of the filtered list has the filtered key. -/
theorem find?_filter_self {V : Nat → Type} (l : List (Nat × DynBox V)) (k : Nat) :
    (l.filter (fun p => p.1 != k)).find? (fun p => p.1 == k) = none := by
  rw [List.find?_eq_none]
  intro x hx
  have := (List.mem_filter.mp hx).2
  simpa using this

/-- Reading after an insert at the inserted key returns the new value. -/
theorem Extensions.get_insert_self {V : Nat → Type} (e : Extensions V) (k : Nat)
    (v : V k) : ((e.insert k v).2).get k = some v := by
  simp only [Extensions.insert, Extensions.get]
  rw [List.find?_append, find?_filter_self]
  simp [DynBox.downcast_self]

/-- Reading after an insert at a different key is unchanged. -/
theorem Extensions.get_insert_ne {V : Nat → Type} (e : Extensions V) (k : Nat)
    (v : V k) (j : Nat) (hkj : k ≠ j) : ((e.insert k v).2).get j = e.get j := by
  simp only [Extensions.insert, Extensions.get]
  rw [List.find?_append, find?_filter_ne _ _ _ (Ne.symm hkj)]
  have h2 : (([(k, ⟨k, v⟩)] : List (Nat × DynBox V)).find? (fun p => p.1 == j)) = none := by
    simp [List.find?_cons, beq_eq_false_iff_ne.mpr hkj]
  rw [h2]
  simp

/-- Reading after a remove at the removed key yields nothing. -/
theorem Extensions.get_remove_self {V : Nat → Type} (e : Extensions V) (k : Nat) :
    ((e.remove k).2).get k = none := by
  simp only [Extensions.remove, Extensions.get]
  rw [find?_filter_self]
  rfl

/-- Reading after a remove at a different key is unchanged. -/
theorem Extensions.get_remove_ne {V : Nat → Type} (e : Extensions V) (k j : Nat)
    (hkj : k ≠ j) : ((e.remove k).2).get j = e.get j := by
  simp only [Extensions.remove, Extensions.get]
  rw [find?_filter_ne _ _ _ (Ne.symm hkj)]

/-- Inserting preserves key distinctness. -/
theorem Extensions.keys_nodup_insert {V : Nat → Type} (e : Extensions V) (k : Nat)
    (v : V k) (h : e.keys.Nodup) : ((e.insert k v).2).keys.Nodup := by
  simp only [Extensions.insert, Extensions.keys] at *
  rw [List.map_append, List.nodup_append]
  refine ⟨?_, List.nodup_singleton k, ?_⟩
  · exact h.sublist ((List.filter_sublist e.map).map (fun p => p.1))
  · intro a ha
    rcases List.mem_map.mp ha with ⟨p, hp, hpa⟩
    have hmem := (List.mem_filter.mp hp).2
    have hpk : p.1 ≠ k := by simpa using hmem
    simp [← hpa, hpk]

/-- Removing preserves key distinctness. -/
theorem Extensions.keys_nodup_remove {V : Nat → Type} (e : Extensions V) (k : Nat)
    (h : e.keys.Nodup) : ((e.remove k).2).keys.Nodup := by
  simp only [Extensions.remove, Extensions.keys] at *
  exact h.sublist ((List.filter_sublist e.map).map (fun p => p.1))

/-- Any run of operations keeps the keys distinct. -/
theorem keys_nodup_foldl {V : Nat → Type} (ops : List (ExtOp V)) (e : Extensions V)
    (h : e.keys.Nodup) : (ops.foldl ExtOp.apply e).keys.Nodup := by
  induction ops generalizing e with
  | nil => exact h
  | cons op rest ih =>
    rw [List.foldl_cons]
    refine ih _ ?_
    cases op with
    | ins k v => exact Extensions.keys_nodup_insert e k v h
    | del k => exact Extensions.keys_nodup_remove e k h

/-- The embedded store refines the reference functional store. -/
theorem get_foldl_spec {V : Nat → Type} (ops : List (ExtOp V)) (e : Extensions V)
    (k : Nat) :
    (ops.foldl ExtOp.apply e).get k = (ops.foldl specUpd (fun j => e.get j)) k := by
  induction ops generalizing e with
  | nil => rfl
  | cons op rest ih =>
    rw [List.foldl_cons, List.foldl_cons, ih]
    have hstep : (fun j => (ExtOp.apply e op).get j) = specUpd (fun j => e.get j) op := by
      funext j
      cases op with
      | ins k2 v =>
        by_cases hkj : k2 = j
        · subst hkj
          simp only [ExtOp.apply, specUpd, dif_pos]
          exact Extensions.get_insert_self e k2 v
        · simp only [ExtOp.apply, specUpd, dif_neg hkj]
          exact Extensions.get_insert_ne e k2 v j hkj
      | del k2 =>
        by_cases hkj : k2 = j
        · subst hkj
          simp only [ExtOp.apply, specUpd, if_pos rfl]
          exact Extensions.get_remove_self e k2
        · simp only [ExtOp.apply, specUpd, if_neg hkj]
          exact Extensions.get_remove_ne e k2 j hkj
    rw [hstep]

/-- Claim C9: for every extension store and type, insert stores the value
and returns the previously stored value of that type (none otherwise);
after any sequence of insert and remove operations the store holds at
most one value per distinct type (its keys stay distinct), and get
returns the most recently inserted, not-removed value of that type (the
reference functional store). -/
theorem extensions_contract :
    (∀ (V : Nat → Type) (e : Extensions V) (k : Nat) (v : V k),
      (e.insert k v).1 = e.get k) ∧
    (∀ (V : Nat → Type) (ops : List (ExtOp V)), (runOps ops).keys.Nodup) ∧
    (∀ (V : Nat → Type) (ops : List (ExtOp V)) (k : Nat),
      (runOps ops).get k = specStore ops k) := by
  refine ⟨fun V e k v => rfl, fun V ops => ?_, fun V ops k => ?_⟩
  · exact keys_nodup_foldl ops Extensions.empty (by simp [Extensions.empty, Extensions.keys])
  · have := get_foldl_spec ops (Extensions.empty (V := V)) k
    simpa [runOps, specStore, Extensions.empty, Extensions.get] using this

/-- Executing the chain built from the identified middlewares runs all
before phases in list order, then the handler, then the after phases in
reverse order. -/
theorem chainTraceAux (is : List Nat) (q : List Ev) :
    buildChain (is.map logMw) logHandler q () =
      q ++ is.map Ev.before ++ [Ev.handled] ++ (is.reverse.map Ev.after) := by
  induction is generalizing q with
  | nil => simp [buildChain, logHandler]
  | cons i rest ih =>
    have hstep : buildChain ((i :: rest).map logMw) logHandler q () =
        (buildChain (rest.map logMw) logHandler (q ++ [Ev.before i]) ()) ++ [Ev.after i] := rfl
    rw [hstep, ih]
    simp

/-- Flattening a tower of nested scopes around a single route produces
that route under the concatenated mount path, with the scope middleware
lists concatenated outermost first in front of the innermost list. -/
theorem flatten_scopeTower {H M : Type} (scopes : List (String × List M)) (m : Method)
    (p : String) (h : H) (ms : List M) (pre : String) :
    (scopeTower scopes (RouterM.mk [(m, p, h)] ms [])).flatten pre =
      [(m, scopes.foldl (fun acc sc => acc ++ sc.1) pre ++ p, h,
        (scopes.map (fun sc => sc.2)).foldr (fun a b => a ++ b) ms)] := by
  induction scopes generalizing pre with
  | nil => simp [scopeTower, RouterM.flatten, RouterM.flattenNested]
  | cons sc rest ih =>
    show (RouterM.mk [] sc.2 [(sc.1, scopeTower rest (RouterM.mk [(m, p, h)] ms []))]).flatten
        pre = _
    rw [RouterM.flatten, RouterM.flattenNested, RouterM.flattenNested, ih]
    simp

/-- For an application holding a single registered route, dispatch-time
resolution at that path yields its handler together with the global
middleware followed by the middleware the route was registered with. -/
theorem resolve_single {S H M : Type} (st : Option S) (eh : Option (Error → Res))
    (G : List M) (m m2 : Method) (p : String) (h : H) (mws : List M) :
    resolveOf (AppModel.mk (S := S) [(m, p, h, mws)] G st eh) (plainReq m2 p) =
      some (h, G ++ mws) := by
  simp [resolveOf, buildTable, combineRoutes, groupedRoutes, tableInsert, tableAt,
    plainReq, List.dedup_cons_of_not_mem, List.find?_cons]

/-- The counted chain builder wraps once per middleware and produces the
same chain as the plain builder. -/
theorem buildChainCounted_eq {S Q R : Type} (mws : List (MwFn S Q R))
    (h : HandlerFn S Q R) :
    buildChainCounted mws h = (buildChain mws h, mws.length) := by
  induction mws with
  | nil => rfl
  | cons m rest ih =>
    show (fun q s => m q s (buildChainCounted rest h).1,
          (buildChainCounted rest h).2 + 1) = _
    rw [ih]
    rfl

/-- One body call consumes at most the remaining read potential. -/
theorem bodyStep_potential (r : Req) :
    (r.bodyStep).2.2 + readPotential (r.bodyStep).2.1 ≤ readPotential r := by
  unfold Req.bodyStep Req.bodyRead
  split
  · simp
  · rename_i hcell
    split
    · simp
    · rename_i tr hinc
      split
      · simp [readPotential, hcell, hinc]
      · split
        · simp [readPotential, hcell, hinc]
        · split
          · split
            · simp [readPotential, hcell, hinc]
            · simp [readPotential, hcell, hinc]
          · simp [readPotential, hcell, hinc]

/-- Repeated body calls perform at most `readPotential` transport reads. -/
theorem bodyCalls_le_potential (n : Nat) (r : Req) :
    (bodyCalls n r).2 ≤ readPotential r := by
  induction n generalizing r with
  | zero => simp [bodyCalls]
  | succ n ih =>
    have h1 := bodyStep_potential r
    have h2 := ih (r.bodyStep).2.1
    simp only [bodyCalls]
    omega

/-- The read potential of any request is at most one. -/
theorem readPotential_le_one (r : Req) : readPotential r ≤ 1 := by
  unfold readPotential
  split <;> simp

/-- A successful body call leaves the bytes in the cell of the returned
request. -/
theorem bodyStep_ok_cell (r : Req) (b : Bytes) (r2 : Req) (n : Nat)
    (h : r.bodyStep = (Except.ok b, r2, n)) : r2.bodyCell = some b := by
  unfold Req.bodyStep Req.bodyRead at h
  split at h
  · rename_i b0 hcell
    simp only [Prod.mk.injEq, Except.ok.injEq] at h
    obtain ⟨hb, hr, -⟩ := h
    subst hr
    rw [hcell, hb]
  · split at h
    · simp at h
    · split at h
      · simp at h
      · split at h
        · simp at h
        · split at h
          · split at h
            · simp at h
            · simp only [Prod.mk.injEq, Except.ok.injEq] at h
              obtain ⟨hb, hr, -⟩ := h
              subst hr
              simp [hb]
          · simp only [Prod.mk.injEq, Except.ok.injEq] at h
            obtain ⟨hb, hr, -⟩ := h
            subst hr
            simp [hb]

/-- After a successful body call, a further call returns the cached
bytes and performs no transport read. -/
theorem bodyStep_cached (r : Req) (b : Bytes) (r2 : Req) (n : Nat)
    (h : r.bodyStep = (Except.ok b, r2, n)) : r2.bodyStep = (Except.ok b, r2, 0) := by
  have hc := bodyStep_ok_cell r b r2 n h
  unfold Req.bodyStep
  rw [hc]

/-- Claim C1: the specification requires that a request resolves to a
registered handler only when both method and path match, and resolves to
no handler of a pattern whose registrations all carry a different
method. In the code, `build_router` discards the method grouping and
`handle_request` looks up the path only, so a POST request to a path
registered only for GET still resolves to the GET handler: the claim
fails on the code. -/
theorem routing_ignores_method_bug :
    resolveOf app1 (plainReq Method.POST "/users") = some (1, []) ∧
    (plainReq Method.POST "/users").method = Method.POST ∧
    app1.routes.map (fun e => e.1) = [Method.GET] := by
  refine ⟨?_, rfl, rfl⟩
  exact resolve_single _ _ _ _ _ _ _ _

/-- Claim C2: the specification requires a configured body-size limit to
produce a 413 outcome for oversized bodies before any extractor sees the
bytes. In the code the limit machinery exists (req.rs body checks,
set_body_limit, the config field) but nothing ever calls
`set_body_limit`: `from_hyper` leaves the limit unset and dispatch never
sets it, so an 11-byte body sails past a configured 10-byte limit into
the extractor with a 200 outcome. The last conjunct shows the dormant
check would have produced the 413 had the limit reached the request. -/
theorem body_limit_never_applied_bug :
    configLimit10.bodyLimit = some 10 ∧
    req11.bodyLimit = none ∧
    (dispatchI app2 req11).1 = Res.text "got-eleven-bytes" ∧
    (dispatchI app2 req11).1.statusCode = 200 ∧
    ((req11.setBodyLimit (some 10)).bodyStep).1 =
      Except.error (Error.payloadTooLarge "Request body size 11 exceeds limit of 10") := by
  refine ⟨rfl, rfl, ?_, ?_, ?_⟩
  · rfl
  · rfl
  · rfl

/-- Claim C3 counterexample: the claim says the middleware chain is
constructed exactly once at application-build time and dispatch never
rebuilds it. In the code the chain is composed inside `handle_request`:
each of two dispatches of the same endpoint performs one chain wrapper
construction (one per middleware), so construction happens per request,
not once at build time. -/
theorem chain_rebuilt_counterexample :
    (dispatchI app3 (plainReq Method.GET "/a")).2 = 1 ∧
    (dispatchI app3 { plainReq Method.GET "/a" with queryStr := some "x=1" }).2 = 1 := by
  exact ⟨rfl, rfl⟩

/-- Claim C3 (amended): build time stores only the handler and the
combined middleware list; every dispatch that matches an endpoint with a
non-empty middleware list composes the nested continuation chain anew,
performing one wrapper construction per middleware, and the response it
produces equals the one a once-built chain would produce on the prepared
request and state. -/
theorem chain_rebuilt_amended {S : Type}
    (app : AppModel S (HandlerFn S Req Res) (MwFn S Req Res)) (r : Req)
    (h : HandlerFn S Req Res) (mws : List (MwFn S Req Res)) (st : S)
    (hst : app.stateVal = some st) (hres : resolveOf app r = some (h, mws)) :
    dispatchI app r =
      (buildChain mws h (prepareReq app r) st,
       if mws.isEmpty then 0 else mws.length) := by
  unfold dispatchI
  rw [hres, hst]
  cases mws with
  | nil => simp [buildChain]
  | cons m rest => simp [buildChainCounted_eq]

/-- Witness for the amended claim C3 at the concrete application. -/
theorem chain_rebuilt_amended_witness :
    dispatchI app3 (plainReq Method.GET "/a") =
      (buildChain [passMw] okHandler (prepareReq app3 (plainReq Method.GET "/a")) (), 1) := by
  exact chain_rebuilt_amended app3 (plainReq Method.GET "/a") okHandler [passMw] () rfl
    (resolve_single (some ()) none [passMw] Method.GET Method.GET "/a" okHandler [])

/-- Claim C4: the specification says a registered error-to-response
converter overrides the default error mapping for every framework error
response. In the code the registered handler is only inserted into the
request extensions and never invoked: an extraction failure and a
route-match failure are both answered by the default `IntoRes for Error`
mapping (status 400 and 404 here), not by the registered converter,
which maps every error to status 599. -/
theorem error_handler_unused_bug :
    (dispatchI app4 (plainReq Method.GET "/a")).1 =
      (Error.badRequest "Missing query string").intoRes ∧
    (dispatchI app4 (plainReq Method.GET "/zzz")).1 =
      (Error.notFound "Route not found").intoRes ∧
    eh599 (Error.badRequest "Missing query string") = Res.statusOnly 599 ∧
    (dispatchI app4 (plainReq Method.GET "/a")).1.statusCode = 400 ∧
    (dispatchI app4 (plainReq Method.GET "/zzz")).1.statusCode = 404 ∧
    (Res.statusOnly 599).statusCode = 599 := by
  exact ⟨rfl, rfl, rfl, rfl, rfl, rfl⟩

/-- Claim C5: the effective middleware list of a matched endpoint is the
global middleware in registration order, then the nesting-scope
middleware from outermost to innermost mount, then the per-route
middleware in registration order; executing the built chain runs the
before phases in that order and the after phases in exactly the reverse
order. -/
theorem effective_middleware_order :
    (∀ (H M : Type) (G : List M) (scopes : List (String × List M)) (m : Method)
      (p pre : String) (h : H) (ms : List M),
      resolveOf
        (AppModel.nestRouter (AppModel.mk (S := Unit) [] G (some ()) none) pre
          (scopeTower scopes (RouterM.mk [(m, p, h)] ms [])))
        (plainReq m ((scopes.foldl (fun acc sc => acc ++ sc.1) pre) ++ p)) =
        some (h, G ++ (scopes.map (fun sc => sc.2)).foldr (fun a b => a ++ b) ms)) ∧
    (∀ (H M : Type) (G R : List M) (m : Method) (p : String) (h : H),
      resolveOf (AppModel.mk (S := Unit) [(m, p, h, R)] G (some ()) none)
        (plainReq m p) = some (h, G ++ R)) ∧
    (∀ (is : List Nat) (q : List Ev),
      buildChain (is.map logMw) logHandler q () =
        q ++ is.map Ev.before ++ [Ev.handled] ++ (is.reverse.map Ev.after)) := by
  refine ⟨?_, ?_, chainTraceAux⟩
  · intro H M G scopes m p pre h ms
    have hfl := flatten_scopeTower scopes m p h ms pre
    simp only [AppModel.nestRouter]
    rw [hfl]
    simp only [List.nil_append]
    exact resolve_single _ _ _ _ _ _ _ _
  · intro H M G R m p h
    exact resolve_single _ _ _ _ _ _ _ _

/-- Claim C6: extractors run left-to-right in declaration order; the
first failing extractor determines the response (the direct conversion
of its error), independently of every later extractor and of the user
function, which therefore never run; when an earlier extractor succeeds
the next one receives the request it produced. -/
theorem extractor_short_circuit :
    (∀ (S A B O : Type) (e1 : ExtractorFn S A) (e2 : ExtractorFn S B) (f : A → B → O)
      (toRes : O → Res) (r r1 : Req) (st : S) (err : Error),
      e1 r st = (Except.error err, r1) →
      fnHandler2Call e1 e2 f toRes r st = err.intoRes) ∧
    (∀ (S A B O : Type) (e1 : ExtractorFn S A) (e2 : ExtractorFn S B) (f : A → B → O)
      (toRes : O → Res) (r r1 r2 : Req) (st : S) (a : A) (err : Error),
      e1 r st = (Except.ok a, r1) → e2 r1 st = (Except.error err, r2) →
      fnHandler2Call e1 e2 f toRes r st = err.intoRes) ∧
    (∀ (S A B O : Type) (e1 : ExtractorFn S A) (e2 : ExtractorFn S B) (f : A → B → O)
      (toRes : O → Res) (r r1 r2 : Req) (st : S) (a : A) (b : B),
      e1 r st = (Except.ok a, r1) → e2 r1 st = (Except.ok b, r2) →
      fnHandler2Call e1 e2 f toRes r st = toRes (f a b)) ∧
    (∀ (S A B C O : Type) (e1 : ExtractorFn S A) (e2 : ExtractorFn S B)
      (e3 : ExtractorFn S C) (f : A → B → C → O) (toRes : O → Res) (r r1 : Req)
      (st : S) (err : Error),
      e1 r st = (Except.error err, r1) →
      fnHandler3Call e1 e2 e3 f toRes r st = err.intoRes) ∧
    (∀ (S A B C O : Type) (e1 : ExtractorFn S A) (e2 : ExtractorFn S B)
      (e3 : ExtractorFn S C) (f : A → B → C → O) (toRes : O → Res) (r r1 r2 : Req)
      (st : S) (a : A) (err : Error),
      e1 r st = (Except.ok a, r1) → e2 r1 st = (Except.error err, r2) →
      fnHandler3Call e1 e2 e3 f toRes r st = err.intoRes) ∧
    (∀ (S A B C O : Type) (e1 : ExtractorFn S A) (e2 : ExtractorFn S B)
      (e3 : ExtractorFn S C) (f : A → B → C → O) (toRes : O → Res) (r r1 r2 r3 : Req)
      (st : S) (a : A) (b : B) (err : Error),
      e1 r st = (Except.ok a, r1) → e2 r1 st = (Except.ok b, r2) →
      e3 r2 st = (Except.error err, r3) →
      fnHandler3Call e1 e2 e3 f toRes r st = err.intoRes) := by
  refine ⟨?_, ?_, ?_, ?_, ?_, ?_⟩
  · intro S A B O e1 e2 f toRes r r1 st err h1
    unfold fnHandler2Call
    rw [h1]
  · intro S A B O e1 e2 f toRes r r1 r2 st a err h1 h2
    unfold fnHandler2Call
    rw [h1]
    dsimp only
    rw [h2]
  · intro S A B O e1 e2 f toRes r r1 r2 st a b h1 h2
    unfold fnHandler2Call
    rw [h1]
    dsimp only
    rw [h2]
  · intro S A B C O e1 e2 e3 f toRes r r1 st err h1
    unfold fnHandler3Call
    rw [h1]
  · intro S A B C O e1 e2 e3 f toRes r r1 r2 st a err h1 h2
    unfold fnHandler3Call
    rw [h1]
    dsimp only
    rw [h2]
  · intro S A B C O e1 e2 e3 f toRes r r1 r2 r3 st a b err h1 h2 h3
    unfold fnHandler3Call
    rw [h1]
    dsimp only
    rw [h2]
    dsimp only
    rw [h3]

/-- Witness for claim C6 at a concrete failing first extractor. -/
theorem extractor_short_circuit_witness :
    fnHandler2Call failExtractor okExtractor (fun a b : Nat => toString (a + b)) Res.text
      (plainReq Method.GET "/w") () = (Error.badRequest "no").intoRes := by
  exact extractor_short_circuit.1 Unit Nat Nat String failExtractor okExtractor
    (fun a b : Nat => toString (a + b)) Res.text (plainReq Method.GET "/w")
    (plainReq Method.GET "/w") () (Error.badRequest "no") rfl

/-- Claim C7: the first successful body call performs the single
transport read and caches the bytes; any further body call returns the
same bytes without reading again, a second body-bytes extraction
observes byte-identical content, and over any number of body calls the
transport is read at most once. -/
theorem body_single_consumption :
    (∀ (r : Req) (b : Bytes) (r2 : Req) (n : Nat),
      r.bodyStep = (Except.ok b, r2, n) → r2.bodyStep = (Except.ok b, r2, 0)) ∧
    (∀ (r : Req) (b : Bytes) (r2 : Req),
      bodyBytesFromRequest r = (Except.ok b, r2) →
      bodyBytesFromRequest r2 = (Except.ok b, r2)) ∧
    (∀ (n : Nat) (r : Req), (bodyCalls n r).2 ≤ 1) := by
  refine ⟨bodyStep_cached, ?_, ?_⟩
  · intro r b r2 h
    unfold bodyBytesFromRequest Req.bodyE at h
    unfold bodyBytesFromRequest Req.bodyE
    rcases hs : r.bodyStep with ⟨res, r1, cnt⟩
    rw [hs] at h
    cases res with
    | error e => simp at h
    | ok bs =>
      simp only [Prod.mk.injEq, Except.ok.injEq] at h
      obtain ⟨hb, hr⟩ := h
      subst hb
      subst hr
      rw [bodyStep_cached r bs r1 cnt hs]
  · intro n r
    exact le_trans (bodyCalls_le_potential n r) (readPotential_le_one r)

/-- Witness for claim C7: a fresh two-byte request, after its first
successful read, answers the cached bytes with no further read. -/
theorem body_single_consumption_witness :
    ({ reqBody2 with incoming := none, bodyCell := some [5, 6] } : Req).bodyStep =
      (Except.ok [5, 6],
       ({ reqBody2 with incoming := none, bodyCell := some [5, 6] } : Req), 0) := by
  exact body_single_consumption.1 reqBody2 [5, 6]
    ({ reqBody2 with incoming := none, bodyCell := some [5, 6] } : Req) 1 rfl

/-- Claim C8: the form and JSON extractors compare the content-type
header with their expected media type before touching the body: on a
mismatching or absent content-type they fail with the 400 bad-request
error, the request is returned unchanged (no body consumption), and the
result does not depend on the body deserializer. -/
theorem content_type_checked_before_parse :
    (∀ (A : Type) (parse : Bytes → Except String A) (r : Req),
      ((headerGet r.headers "content-type").getD "").startsWith
          "application/x-www-form-urlencoded" = false →
      formFromRequest parse r =
        (Except.error
          (Error.badRequest "Content-Type must be application/x-www-form-urlencoded"), r)) ∧
    (∀ (A : Type) (parse : Bytes → Except String A) (r : Req),
      ((headerGet r.headers "content-type").getD "").startsWith
          "application/json" = false →
      jsonFromRequest parse r =
        (Except.error (Error.badRequest "Content-Type must be application/json"), r)) ∧
    (∀ (msg : String), (Error.badRequest msg).intoRes.statusCode = 400) := by
  refine ⟨?_, ?_, fun msg => rfl⟩
  · intro A parse r h
    unfold formFromRequest
    simp [h]
  · intro A parse r h
    unfold jsonFromRequest
    simp [h]

set_option maxRecDepth 10000 in
/-- Witness for claim C8 on a request without a content-type header. -/
theorem content_type_checked_witness :
    formFromRequest (fun _ => Except.ok ()) (plainReq Method.POST "/f") =
      (Except.error
        (Error.badRequest "Content-Type must be application/x-www-form-urlencoded"),
       plainReq Method.POST "/f") := by
  exact content_type_checked_before_parse.1 Unit (fun _ => Except.ok ())
    (plainReq Method.POST "/f") rfl

/-- Claim C10: a request without any query string makes the query
extractor fail with the 400 bad-request error carrying the message
Missing query string, for every deserializer (also one that accepts the
empty input), and a handler adapted over that extractor answers exactly
the conversion of that error, so the user function is never invoked. -/
theorem query_missing_rejected :
    (∀ (A : Type) (parse : String → Except String A) (r : Req), r.queryStr = none →
      queryFromRequest parse r =
        (Except.error (Error.badRequest "Missing query string"), r)) ∧
    (∀ (S A O : Type) (parse : String → Except String A) (f : A → O) (toRes : O → Res)
      (r : Req) (st : S), r.queryStr = none →
      fnHandler1Call (fun r2 _ => queryFromRequest parse r2) f toRes r st =
        (Error.badRequest "Missing query string").intoRes) ∧
    ((Error.badRequest "Missing query string").intoRes =
      Res.builderStatusText 400 "400 Missing query string") := by
  refine ⟨?_, ?_, rfl⟩
  · intro A parse r h
    unfold queryFromRequest
    rw [h]
  · intro S A O parse f toRes r st h
    unfold fnHandler1Call queryFromRequest
    dsimp only
    rw [h]

/-- Witness for claim C10 with a deserializer that accepts empty input. -/
theorem query_missing_rejected_witness :
    fnHandler1Call (fun r2 _ => queryFromRequest (fun _ => Except.ok (0 : Nat)) r2)
      (fun n : Nat => toString n) Res.text (plainReq Method.GET "/q") () =
      (Error.badRequest "Missing query string").intoRes := by
  exact query_missing_rejected.2.1 Unit Nat String (fun _ => Except.ok (0 : Nat))
    (fun n : Nat => toString n) Res.text (plainReq Method.GET "/q") () rfl

end FotonRs
